import Mathlib

/-!
Verification of the PM2.5 prediction backend (`pm-2-5-be`).

Shallow embedding of the parts of the code the claims are about:

* `utils/cache_manager.py` — `CacheManager` (TTL + LFU/LRU eviction).
  Python `dict`s are modelled as insertion-ordered association lists with
  unique keys (`dictGet?`, `dictSet`, `dictPop`), matching CPython's
  behaviour: assignment to an existing key keeps its position, a new key
  is appended, `pop` removes the entry.
* `api/routes.py` — `validate_prediction_request` and the batch endpoint
  `predict_all_districts`.
* `core/data_fetcher.py` — the forecast/archive source selection of
  `fetch_weather_at_time`.
* `core/feature_engineering.py` — `create_features_from_3hours`.
* `core/predictor.py` — `predict_pm25_for_district`.

Machine floats are modelled as exact rationals; the float library
functions `sqrt`, `sin`, `cos` (only used to fill feature cells whose
numeric value no claim constrains) are abstracted as function parameters.
`time.time()` timestamps and TTLs are modelled as integers (seconds).
-/

/-- `d.get(k)` for a Python dict modelled as an association list:
value at the first (unique) matching key. -/
def dictGet? {K V : Type} [DecidableEq K] : List (K × V) → K → Option V
  | [], _ => none
  | p :: l, k => if p.1 = k then some p.2 else dictGet? l k

/-- `d[k] = v` for a Python dict: update in place if the key is present
(keeping its position), otherwise append. -/
def dictSet {K V : Type} [DecidableEq K] : List (K × V) → K → V → List (K × V)
  | [], k, v => [(k, v)]
  | p :: l, k, v => if p.1 = k then (k, v) :: l else p :: dictSet l k v

/-- `d.pop(k, None)` for a Python dict: drop the entry with the given key. -/
def dictPop {K V : Type} [DecidableEq K] : List (K × V) → K → List (K × V)
  | [], _ => []
  | p :: l, k => if p.1 = k then dictPop l k else p :: dictPop l k

section DictLemmas

variable {K V : Type} [DecidableEq K]

theorem dictGet?_dictSet_self (l : List (K × V)) (k : K) (v : V) :
    dictGet? (dictSet l k v) k = some v := by
  induction l with
  | nil => simp [dictGet?, dictSet]
  | cons p rest ih =>
    by_cases hp : p.1 = k
    · simp [dictGet?, dictSet, hp]
    · simp [dictGet?, dictSet, hp, ih]

theorem dictGet?_dictSet_ne (l : List (K × V)) (k j : K) (v : V) (h : j ≠ k) :
    dictGet? (dictSet l k v) j = dictGet? l j := by
  induction l with
  | nil => simp [dictGet?, dictSet, Ne.symm h]
  | cons p rest ih =>
    by_cases hp : p.1 = k
    · simp [dictGet?, dictSet, hp, Ne.symm h]
    · by_cases hpj : p.1 = j <;> simp [dictGet?, dictSet, hp, hpj, h, ih]

theorem dictGet?_dictPop_self (l : List (K × V)) (k : K) :
    dictGet? (dictPop l k) k = none := by
  induction l with
  | nil => simp [dictGet?, dictPop]
  | cons p rest ih =>
    by_cases hp : p.1 = k
    · simp [dictPop, hp, ih]
    · simp [dictGet?, dictPop, hp, ih]

theorem dictGet?_dictPop_ne (l : List (K × V)) (k j : K) (h : j ≠ k) :
    dictGet? (dictPop l k) j = dictGet? l j := by
  induction l with
  | nil => simp [dictPop]
  | cons p rest ih =>
    by_cases hp : p.1 = k
    · simp [dictGet?, dictPop, hp, Ne.symm h, ih]
    · by_cases hpj : p.1 = j <;> simp [dictGet?, dictPop, hp, hpj, h, ih]

theorem dictSet_map_fst (l : List (K × V)) (k : K) (v : V) :
    (dictSet l k v).map Prod.fst =
      if k ∈ l.map Prod.fst then l.map Prod.fst else l.map Prod.fst ++ [k] := by
  induction l with
  | nil => simp [dictSet]
  | cons p rest ih =>
    by_cases hp : p.1 = k
    · simp [dictSet, hp]
    · have hne : ¬ k = p.1 := fun hc => hp hc.symm
      by_cases hmem : k ∈ rest.map Prod.fst <;>
        simp [dictSet, hp, hmem, hne, ih]

theorem dictPop_map_fst (l : List (K × V)) (k : K) :
    (dictPop l k).map Prod.fst = (l.map Prod.fst).filter (fun a => decide (a ≠ k)) := by
  induction l with
  | nil => simp [dictPop]
  | cons p rest ih =>
    by_cases hp : p.1 = k <;> simp [dictPop, List.filter, hp, ih]

theorem dictPop_of_not_mem (l : List (K × V)) (k : K) (h : k ∉ l.map Prod.fst) :
    dictPop l k = l := by
  induction l with
  | nil => rfl
  | cons p rest ih =>
    simp only [List.map_cons, List.mem_cons] at h
    push_neg at h
    have hp : ¬ p.1 = k := fun hc => h.1 hc.symm
    simp [dictPop, hp, ih h.2]

theorem dictPop_length_of_mem (l : List (K × V)) (k : K)
    (hnd : (l.map Prod.fst).Nodup) (hmem : k ∈ l.map Prod.fst) :
    (dictPop l k).length + 1 = l.length := by
  induction l with
  | nil => simp at hmem
  | cons p rest ih =>
    simp only [List.map_cons, List.nodup_cons] at hnd
    simp only [List.map_cons, List.mem_cons] at hmem
    by_cases hp : p.1 = k
    · have : dictPop rest k = rest := dictPop_of_not_mem rest k (hp ▸ hnd.1)
      simp [dictPop, hp, this]
    · have hmem' : k ∈ rest.map Prod.fst := by
        rcases hmem with h | h
        · exact absurd h.symm hp
        · exact h
      have := ih hnd.2 hmem'
      simp only [dictPop, if_neg hp, List.length_cons]
      omega

theorem dictSet_length (l : List (K × V)) (k : K) (v : V) :
    (dictSet l k v).length =
      if k ∈ l.map Prod.fst then l.length else l.length + 1 := by
  induction l with
  | nil => simp [dictSet]
  | cons p rest ih =>
    by_cases hp : p.1 = k
    · simp [dictSet, hp]
    · have hne : ¬ k = p.1 := fun hc => hp hc.symm
      by_cases hmem : k ∈ rest.map Prod.fst <;>
        simp [dictSet, hp, hmem, hne, ih]

theorem dictGet?_of_not_mem (l : List (K × V)) (k : K) (h : k ∉ l.map Prod.fst) :
    dictGet? l k = none := by
  induction l with
  | nil => rfl
  | cons p rest ih =>
    simp only [List.map_cons, List.mem_cons] at h
    push_neg at h
    have hp : ¬ p.1 = k := fun hc => h.1 hc.symm
    simp [dictGet?, hp, ih h.2]

/-- Lookup in an association list built uniformly over a key list. -/
theorem dictGet?_map_mk {β : Type} (g : K → β) (l : List K) (j : K) :
    dictGet? (l.map (fun i => (i, g i))) j = if j ∈ l then some (g j) else none := by
  induction l with
  | nil => simp [dictGet?]
  | cons i rest ih =>
    by_cases hij : i = j
    · subst hij; simp [dictGet?]
    · have : ¬ j = i := fun hc => hij hc.symm
      simp [dictGet?, hij, this, ih]

/-- `pop` on an association list built uniformly over a key list. -/
theorem dictPop_map_mk {β : Type} (g : K → β) (l : List K) (k : K) :
    dictPop (l.map (fun i => (i, g i))) k =
      (l.filter (fun i => decide (i ≠ k))).map (fun i => (i, g i)) := by
  induction l with
  | nil => rfl
  | cons i rest ih =>
    by_cases hik : i = k <;> simp [dictPop, List.filter, hik, ih]

end DictLemmas

/-! ## `utils/cache_manager.py` — `CacheManager` -/

/-- State of `CacheManager`: three Python dicts (value, insertion
timestamp, access counter) plus the capacity `max_size`. -/
structure CacheManager (K V : Type) where
  cache : List (K × V)
  timestamps : List (K × Int)
  access_count : List (K × Nat)
  max_size : Nat

namespace CacheManager

variable {K V : Type} [DecidableEq K]

/-- `CacheManager.__init__`: empty dicts. -/
def init (max_size : Nat) : CacheManager K V :=
  { cache := [], timestamps := [], access_count := [], max_size := max_size }

/-- The sort key used by `_evict_lru`:
`lambda x: (self.access_count.get(x[0], 0), x[1])` on a `timestamps` item. -/
def rankOf (s : CacheManager K V) (p : K × Int) : Nat × Int :=
  ((dictGet? s.access_count p.1).getD 0, p.2)

/-- Strict lexicographic comparison of rank pairs, as Python compares
`(access_count, timestamp)` tuples. -/
def rankLtB (a b : Nat × Int) : Bool :=
  decide (a.1 < b.1 ∨ (a.1 = b.1 ∧ a.2 < b.2))

/-- Non-strict lexicographic order on rank pairs. -/
def rankLe (a b : Nat × Int) : Prop :=
  a.1 < b.1 ∨ (a.1 = b.1 ∧ a.2 ≤ b.2)

/-- `min(self.timestamps.items(), key=...)`: Python's `min` returns the
first item attaining the minimal key. `none` when `timestamps` is empty
(where Python's `min` would raise `ValueError`; unreachable because
`_evict_lru` is only entered with a non-empty, key-synchronized cache). -/
def lruEntry (s : CacheManager K V) : Option (K × Int) :=
  match s.timestamps with
  | [] => none
  | t :: ts =>
    some (ts.foldl (fun best p => if rankLtB (s.rankOf p) (s.rankOf best) then p else best) t)

/-- `CacheManager._remove`: pop the key from all three dicts. -/
def _remove (s : CacheManager K V) (k : K) : CacheManager K V :=
  { s with cache := dictPop s.cache k, timestamps := dictPop s.timestamps k,
           access_count := dictPop s.access_count k }

/-- `CacheManager._evict_lru`. -/
def _evict_lru (s : CacheManager K V) : CacheManager K V :=
  if s.cache.isEmpty then s
  else
    match s.lruEntry with
    | none => s
    | some t => s._remove t.1

/-- `CacheManager.get(key, ttl)` at current time `now`; returns the
Python return value together with the post-state. -/
def get (s : CacheManager K V) (k : K) (ttl now : Int) : Option V × CacheManager K V :=
  match dictGet? s.cache k with
  | some v =>
    let timestamp := (dictGet? s.timestamps k).getD 0
    if now - timestamp < ttl then
      (some v,
       { s with access_count := dictSet s.access_count k ((dictGet? s.access_count k).getD 0 + 1) })
    else
      (none, s._remove k)
  | none => (none, s)

/-- The unconditional insertion part of `CacheManager.set` (the three
dict assignments after the capacity check). -/
def setRaw (s : CacheManager K V) (k : K) (v : V) (now : Int) : CacheManager K V :=
  { s with cache := dictSet s.cache k v, timestamps := dictSet s.timestamps k now,
           access_count := dictSet s.access_count k 0 }

/-- `CacheManager.set(key, value)` at current time `now`. -/
def set (s : CacheManager K V) (k : K) (v : V) (now : Int) : CacheManager K V :=
  setRaw (if s.max_size ≤ s.cache.length then s._evict_lru else s) k v now

/-- `CacheManager.clear()`: Python computes `count = len(self.cache)`
only for the log line and falls off the end of the function, so the
return value is `None` (modelled as `none`); the count never reaches
the caller. -/
def clear (s : CacheManager K V) : Option Nat × CacheManager K V :=
  (none, { s with cache := [], timestamps := [], access_count := [] })

end CacheManager

/-- One public call to a `CacheManager` (the operations reachable from
the rest of the code base). -/
inductive CacheOp (K V : Type) where
  | get (k : K) (ttl now : Int)
  | set (k : K) (v : V) (now : Int)
  | clear

/-- Execute one operation for its state effect. -/
def runOp {K V : Type} [DecidableEq K] (s : CacheManager K V) : CacheOp K V → CacheManager K V
  | .get k ttl now => (s.get k ttl now).2
  | .set k v now => s.set k v now
  | .clear => (s.clear).2

/-- Execute a sequence of operations from a given state. -/
def runOps {K V : Type} [DecidableEq K] (s : CacheManager K V) (ops : List (CacheOp K V)) :
    CacheManager K V :=
  ops.foldl runOp s

/-! ## `api/routes.py` — `validate_prediction_request` -/

/-- The four mutually exclusive outcomes of `validate_prediction_request`
(`FUTURE_TIME` / `TIME_TOO_RECENT` / `TIME_TOO_OLD` rejections, or the
valid case that returns the window info). -/
inductive ValidationOutcome where
  | FUTURE_TIME
  | TIME_TOO_RECENT
  | TIME_TOO_OLD
  | valid
deriving DecidableEq

/-- `timedelta(minutes=m)` in seconds. -/
def minutesTD (m : Int) : Int := 60 * m

/-- `timedelta(days=d)` in seconds. -/
def daysTD (d : Int) : Int := 86400 * d

/-- `validate_prediction_request`, with `now` and the localized target
time given as epoch seconds.  Rule 1: `target_time > now` → FUTURE_TIME;
rule 2: `target_time > now - 30 min` → TIME_TOO_RECENT;
rule 3: `target_time < now - 90 days` → TIME_TOO_OLD; otherwise valid. -/
def validate_prediction_request (now target : Int) : ValidationOutcome :=
  if now < target then .FUTURE_TIME
  else if now - minutesTD 30 < target then .TIME_TOO_RECENT
  else if target < now - daysTD 90 then .TIME_TOO_OLD
  else .valid

/-! ## `core/data_fetcher.py` — `fetch_weather_at_time` source selection -/

/-- A naive local datetime as used by `fetch_weather_at_time` after
`replace(tzinfo=None)`: its calendar date (as a day number) and its
time-of-day part. -/
structure LocalDateTime where
  date : Int
  timeOfDay : Int

/-- The two upstream weather providers. -/
inductive WeatherSource where
  | forecast
  | archive
deriving DecidableEq

/-- The source selection of `fetch_weather_at_time`:
`if target_naive.date() >= now_naive.date():` forecast `else` archive. -/
def fetch_weather_at_time_source (now target : LocalDateTime) : WeatherSource :=
  if now.date ≤ target.date then .forecast else .archive

/-! ## `core/feature_engineering.py` — `create_features_from_3hours` -/

/-- One row of the 3-hour input DataFrame: the datetime index (modelled
by an order key plus the attributes the code reads from it) and the 15
raw measurement columns. -/
structure Row where
  key : Int
  hour : Nat
  dayofweek : Nat
  month : Nat
  pm2_5 : ℚ
  so2 : ℚ
  co : ℚ
  shortwave_radiation : ℚ
  temperature_2m : ℚ
  relative_humidity_2m : ℚ
  precipitation : ℚ
  pressure_msl : ℚ
  windspeed_10m : ℚ
  winddirection_10m : ℚ
  no : ℚ
  no2 : ℚ
  o3 : ℚ
  pm10 : ℚ
  nh3 : ℚ

/-- One row of `df_features`.  Cells that pandas can leave as `NaN`
(lags, the 3-point rolling sample std at the first row, 1-hour diffs)
are `Option ℚ`; all other cells are always defined. -/
structure FeatureRow where
  pm2_5_lag_1 : Option ℚ
  pm2_5_lag_2 : Option ℚ
  so2_lag_1 : Option ℚ
  co_lag_1 : Option ℚ
  radiation_lag_1 : Option ℚ
  pm2_5_roll_avg_3hr : ℚ
  pm2_5_roll_std_3hr : Option ℚ
  temp_roll_avg_3hr : ℚ
  humid_roll_avg_3hr : ℚ
  so2_roll_avg_3hr : ℚ
  wind_roll_avg_3hr : ℚ
  wind_roll_min_3hr : ℚ
  co_roll_avg_3hr : ℚ
  precip_roll_sum_3hr : ℚ
  pm2_5_diff_1hr : Option ℚ
  temp_diff_1hr : Option ℚ
  humid_diff_1hr : Option ℚ
  temperature_2m : ℚ
  relative_humidity_2m : ℚ
  precipitation : ℚ
  pressure_msl : ℚ
  windspeed_10m : ℚ
  shortwave_radiation : ℚ
  co : ℚ
  no : ℚ
  no2 : ℚ
  o3 : ℚ
  so2 : ℚ
  pm10 : ℚ
  nh3 : ℚ
  is_rainy_season : ℚ
  hour_sin : ℚ
  hour_cos : ℚ
  month_sin : ℚ
  month_cos : ℚ
  day_of_week_sin : ℚ
  day_of_week_cos : ℚ
  temp_humidity : ℚ
  wind_U : ℚ
  wind_V : ℚ

/-- `series.shift(k)` evaluated at position `i` of the sorted frame. -/
def shiftCell (df : List Row) (i k : Nat) (sel : Row → ℚ) : Option ℚ :=
  if k ≤ i then (df[i - k]?).map sel else none

/-- The window `rolling(window=3, min_periods=1)` sees at position `i`:
positions `max (i-2) 0 … i`. -/
def windowSlice (df : List Row) (i : Nat) : List Row :=
  (df.take (i + 1)).drop (i + 1 - 3)

/-- Mean of a list of rationals (`len` is nonzero at every use site). -/
def listMean (xs : List ℚ) : ℚ := xs.sum / (xs.length : ℚ)

/-- Minimum of a non-empty list of rationals (0 for an empty list). -/
def listMin (xs : List ℚ) : ℚ :=
  match xs with
  | [] => 0
  | x :: r => r.foldl min x

/-- Maximum of a non-empty list of rationals (0 for an empty list). -/
def listMax (xs : List ℚ) : ℚ :=
  match xs with
  | [] => 0
  | x :: r => r.foldl max x

/-- Pandas `rolling(...).std()` (sample std, `ddof = 1`): `NaN` (`none`)
when fewer than 2 observations, otherwise the float square root
(abstracted as `sqrtF`) of the sample variance. -/
def rollStd (sqrtF : ℚ → ℚ) (xs : List ℚ) : Option ℚ :=
  if 2 ≤ xs.length then
    some (sqrtF ((xs.map (fun x => (x - listMean xs) ^ 2)).sum / ((xs.length : ℚ) - 1)))
  else none

/-- `series.diff(1)` evaluated at position `i` (whose row is `r`). -/
def diffCell (df : List Row) (i : Nat) (r : Row) (sel : Row → ℚ) : Option ℚ :=
  if 1 ≤ i then (df[i - 1]?).map (fun prev => sel r - sel prev) else none

/-- The row of `df_features` at position `i` (row `r`) of the sorted
frame `df`.  `sqrtF` is the float square root; `sin2pi x` / `cos2pi x`
stand for the float `sin (2πx)` / `cos (2πx)` (so `np.sin(2*np.pi*h/24)`
is `sin2pi (h/24)`, and `cos(np.deg2rad(d))` is `cos2pi (d/360)`). -/
def mkFeatureRow (sqrtF sin2pi cos2pi : ℚ → ℚ) (df : List Row) (i : Nat) (r : Row) :
    FeatureRow :=
  { pm2_5_lag_1 := shiftCell df i 1 Row.pm2_5
    pm2_5_lag_2 := shiftCell df i 2 Row.pm2_5
    so2_lag_1 := shiftCell df i 1 Row.so2
    co_lag_1 := shiftCell df i 1 Row.co
    radiation_lag_1 := shiftCell df i 1 Row.shortwave_radiation
    pm2_5_roll_avg_3hr := listMean ((windowSlice df i).map Row.pm2_5)
    pm2_5_roll_std_3hr := rollStd sqrtF ((windowSlice df i).map Row.pm2_5)
    temp_roll_avg_3hr := listMean ((windowSlice df i).map Row.temperature_2m)
    humid_roll_avg_3hr := listMean ((windowSlice df i).map Row.relative_humidity_2m)
    so2_roll_avg_3hr := listMean ((windowSlice df i).map Row.so2)
    wind_roll_avg_3hr := listMean ((windowSlice df i).map Row.windspeed_10m)
    wind_roll_min_3hr := listMin ((windowSlice df i).map Row.windspeed_10m)
    co_roll_avg_3hr := listMean ((windowSlice df i).map Row.co)
    precip_roll_sum_3hr := ((windowSlice df i).map Row.precipitation).sum
    pm2_5_diff_1hr := diffCell df i r Row.pm2_5
    temp_diff_1hr := diffCell df i r Row.temperature_2m
    humid_diff_1hr := diffCell df i r Row.relative_humidity_2m
    temperature_2m := r.temperature_2m
    relative_humidity_2m := r.relative_humidity_2m
    precipitation := r.precipitation
    pressure_msl := r.pressure_msl
    windspeed_10m := r.windspeed_10m
    shortwave_radiation := r.shortwave_radiation
    co := r.co
    no := r.no
    no2 := r.no2
    o3 := r.o3
    so2 := r.so2
    pm10 := r.pm10
    nh3 := r.nh3
    is_rainy_season := if r.month ∈ [5, 6, 7, 8, 9, 10] then 1 else 0
    hour_sin := sin2pi ((r.hour : ℚ) / 24)
    hour_cos := cos2pi ((r.hour : ℚ) / 24)
    month_sin := sin2pi ((r.month : ℚ) / 12)
    month_cos := cos2pi ((r.month : ℚ) / 12)
    day_of_week_sin := sin2pi ((r.dayofweek : ℚ) / 7)
    day_of_week_cos := cos2pi ((r.dayofweek : ℚ) / 7)
    temp_humidity := r.temperature_2m * r.relative_humidity_2m
    wind_U := r.windspeed_10m * cos2pi (r.winddirection_10m / 360)
    wind_V := r.windspeed_10m * sin2pi (r.winddirection_10m / 360) }

/-- `True` when the feature row has no `NaN` cell (kept by `dropna()`). -/
def rowDefined (fr : FeatureRow) : Bool :=
  fr.pm2_5_lag_1.isSome && fr.pm2_5_lag_2.isSome && fr.so2_lag_1.isSome &&
  fr.co_lag_1.isSome && fr.radiation_lag_1.isSome && fr.pm2_5_roll_std_3hr.isSome &&
  fr.pm2_5_diff_1hr.isSome && fr.temp_diff_1hr.isSome && fr.humid_diff_1hr.isSome

/-- `df_3hours.sort_index()`: stable sort of the rows by their index
(Python's stable `sort` modelled by insertion sort). -/
def sortRows (df : List Row) : List Row :=
  List.insertionSort (fun a b => a.key ≤ b.key) df

/-- All rows of `df_features`, in frame order. -/
def buildFeatureRows (sqrtF sin2pi cos2pi : ℚ → ℚ) (df : List Row) : List FeatureRow :=
  df.enum.map (fun p => mkFeatureRow sqrtF sin2pi cos2pi df p.1 p.2)

/-- `create_features_from_3hours`: length guard, sort a copy, derive the
feature columns, `dropna()`, guard against an empty result, `tail(1)`
(modelled by the last surviving row). -/
def create_features_from_3hours (sqrtF sin2pi cos2pi : ℚ → ℚ) (df_3hours : List Row) :
    Except String FeatureRow :=
  if df_3hours.length < 3 then .error "Need 3 hours of data"
  else
    let df := sortRows df_3hours
    let kept := (buildFeatureRows sqrtF sin2pi cos2pi df).filter rowDefined
    match kept.getLast? with
    | none => .error "Insufficient data to create features"
    | some fr => .ok fr

/-! ## `core/predictor.py` — `predict_pm25_for_district` -/

/-- `round(x, 2)` on the prediction and on the statistics.  Python
rounds floats half-to-even; on the exact rationals of this model we use
half-up rounding — no claim depends on the tie behaviour. -/
def pyRound2 (x : ℚ) : ℚ := ((x * 100 + 1 / 2).floor : ℚ) / 100

/-- A district entry of the static configuration (`districts`). -/
structure District where
  id : Nat
  name : String
  name_en : String
  lat : ℚ
  lon : ℚ
  population : ℚ
  area_km2 : ℚ
  district_type : String

/-- A Python exception, as observed by the `except Exception as e`
handler: its class name (`type(e).__name__`) and message (`str(e)`). -/
structure PyError where
  error_type : String
  msg : String

/-- What the body of `predict_pm25_for_district` produces when no
exception is raised: the scalar `float(model.predict(X_scaled)[0])`.
(The raw-data echo is orthogonal to every claim and omitted.) -/
structure PredPayload where
  prediction : ℚ

/-- The success dict built by `predict_pm25_for_district`
(`status: "success"`). -/
structure SuccessResult where
  id : Nat
  name : String
  name_en : String
  lat : ℚ
  lon : ℚ
  pm25_prediction : ℚ
  population : ℚ
  area_km2 : ℚ
  district_type : String

/-- The error dict built by the `except` handler (`status: "error"`). -/
structure ErrorResult where
  id : Nat
  name : String
  name_en : String
  lat : ℚ
  lon : ℚ
  error : String
  error_type : String

/-- The tagged outcome of one district prediction (the `status` field). -/
inductive PredictionResult where
  | success (r : SuccessResult)
  | failure (e : ErrorResult)

/-- `predict_pm25_for_district`.  The fallible pipeline (fetch the three
snapshots, build and scale the feature row, run the model) is passed as
an `Except`: `.error e` is any exception raised at those steps, and the
function's single `try/except Exception` block converts it into the
error dict — it never re-raises. -/
def predict_pm25_for_district (d : District) (pipeline : Except PyError PredPayload) :
    PredictionResult :=
  match pipeline with
  | .ok payload =>
    .success
      { id := d.id, name := d.name, name_en := d.name_en, lat := d.lat, lon := d.lon,
        pm25_prediction := pyRound2 payload.prediction,
        population := d.population, area_km2 := d.area_km2, district_type := d.district_type }
  | .error e =>
    .failure
      { id := d.id, name := d.name, name_en := d.name_en, lat := d.lat, lon := d.lon,
        error := e.msg, error_type := e.error_type }

/-! ## `api/routes.py` — `predict_all_districts` -/

/-- `result['status'] == 'success'` branch of the collection loop. -/
def toSuccess : PredictionResult → Option SuccessResult
  | .success r => some r
  | .failure _ => none

/-- The `else` branch of the collection loop. -/
def toFailure : PredictionResult → Option ErrorResult
  | .success _ => none
  | .failure e => some e

/-- `np.median`: mean of the middle one or two elements of the sorted
values. -/
def npMedian (xs : List ℚ) : ℚ :=
  let sorted := List.insertionSort (fun a b : ℚ => a ≤ b) xs
  let n := xs.length
  if n % 2 = 1 then (sorted[n / 2]?).getD 0
  else (((sorted[n / 2 - 1]?).getD 0) + ((sorted[n / 2]?).getD 0)) / 2

/-- `np.std` (population std, `ddof = 0`): float square root (`sqrtF`)
of the mean squared deviation. -/
def npStd (sqrtF : ℚ → ℚ) (xs : List ℚ) : ℚ :=
  sqrtF ((xs.map (fun x => (x - listMean xs) ^ 2)).sum / (xs.length : ℚ))

/-- The `statistics` dict of the batch response, computed from
`pm25_values = [r['pm25_prediction'] for r in results]`. -/
structure BatchStatistics where
  city_average : ℚ
  city_max : ℚ
  city_min : ℚ
  city_median : ℚ
  city_std : ℚ
  total_districts_successful : Nat
  total_districts_expected : Nat
  total_districts_failed : Nat
  success_rate_percent : ℚ
  who_above_15 : Nat
  who_below_15 : Nat
  unhealthy_above_55 : Nat

/-- The statistics block of `predict_all_districts` over the successful
prediction values. -/
def computeStatistics (sqrtF : ℚ → ℚ) (vals : List ℚ) (expected success failed : Nat) :
    BatchStatistics :=
  { city_average := pyRound2 (listMean vals)
    city_max := pyRound2 (listMax vals)
    city_min := pyRound2 (listMin vals)
    city_median := pyRound2 (npMedian vals)
    city_std := pyRound2 (npStd sqrtF vals)
    total_districts_successful := success
    total_districts_expected := expected
    total_districts_failed := failed
    success_rate_percent := pyRound2 ((success : ℚ) / (expected : ℚ) * 100)
    who_above_15 := (vals.filter (fun v => decide (15 < v))).length
    who_below_15 := (vals.filter (fun v => decide (v ≤ 15))).length
    unhealthy_above_55 := (vals.filter (fun v => decide (554 / 10 < v))).length }

/-- The parts of the batch response the claims are about: the sorted
success list (`districts`), the sorted error list (`errors`), and the
statistics (`none` models the `"No successful predictions"` error
summary emitted when every district failed). -/
structure BatchResponse where
  districts : List SuccessResult
  errors : List ErrorResult
  statistics : Option BatchStatistics

/-- `predict_all_districts`: run every district through
`predict_pm25_for_district` (the thread pool joins on every future
before any partitioning, so collection order does not matter up to the
final sort), partition by `status`, sort each partition ascending by
`id`, and compute the statistics over the successful values. -/
def predict_all_districts (sqrtF : ℚ → ℚ) (districts : List District)
    (pipe : District → Except PyError PredPayload) : BatchResponse :=
  let outcomes := districts.map (fun d => predict_pm25_for_district d (pipe d))
  let results :=
    List.insertionSort (fun a b : SuccessResult => a.id ≤ b.id) (outcomes.filterMap toSuccess)
  let errors :=
    List.insertionSort (fun a b : ErrorResult => a.id ≤ b.id) (outcomes.filterMap toFailure)
  let pm25_values := results.map SuccessResult.pm25_prediction
  { districts := results
    errors := errors
    statistics :=
      if results.isEmpty then none
      else some (computeStatistics sqrtF pm25_values districts.length results.length errors.length) }

/-! ## Frame-effect model of `create_features_from_3hours`

To settle the mutation claim, the same function is elaborated statement
by statement over an explicit object store: `rowStore` holds the
DataFrame objects with `Row`-shaped columns, `featStore` those with
`FeatureRow`-shaped columns; objects are addressed by position.  Each
pandas call is mapped to its documented effect: `sort_index()`,
`copy()`, `pd.DataFrame(...)`, `dropna()` and `tail(1)` return freshly
allocated frames (appends to the store), while every
`df_features[col] = ...` assignment mutates the frame `df_features`
points to (an in-place `List.set` at its address). -/
def create_features_heap (sqrtF sin2pi cos2pi : ℚ → ℚ) (rowStore : List (List Row))
    (featStore : List (List FeatureRow)) (inputAddr : Nat) :
    List (List Row) × List (List FeatureRow) × Except String Nat :=
  let df_3hours := (rowStore[inputAddr]?).getD []
  if df_3hours.length < 3 then (rowStore, featStore, .error "Need 3 hours of data")
  else
    -- df = df_3hours.sort_index().copy(): two fresh frames
    let sorted := sortRows df_3hours
    let rowStore1 := rowStore ++ [sorted]
    let rowStore2 := rowStore1 ++ [sorted]
    -- df_features = pd.DataFrame(index=df.index): a fresh empty frame ...
    let dAddr := featStore.length
    let featStore1 := featStore ++ [[]]
    -- ... that the column assignments then mutate in place
    let featStore2 := featStore1.set dAddr (buildFeatureRows sqrtF sin2pi cos2pi sorted)
    -- df_features = df_features.dropna(): a fresh frame
    let kept := (buildFeatureRows sqrtF sin2pi cos2pi sorted).filter rowDefined
    let featStore3 := featStore2 ++ [kept]
    if kept.isEmpty then (rowStore2, featStore3, .error "Insufficient data to create features")
    else
      -- return df_features.tail(1): a fresh frame
      let tail1 := match kept.getLast? with
        | some fr => [fr]
        | none => []
      let resAddr := featStore3.length
      (rowStore2, featStore3 ++ [tail1], .ok resAddr)

/-- Holds when an `Except` result, if it is `.ok`, satisfies `p`. -/
def okSat {ε α : Type} (e : Except ε α) (p : α → Prop) : Prop :=
  match e with
  | .error _ => True
  | .ok a => p a

/-! ## Helper lemmas -/

theorem set_append_length {α : Type} (l : List α) (a b : α) :
    (l ++ [a]).set l.length b = l ++ [b] := by
  induction l with
  | nil => rfl
  | cons x xs ih => simp [List.set, ih]

theorem take_append_self {α : Type} (l t : List α) : (l ++ t).take l.length = l := by
  simp [List.take_append_eq_append_take]

/-! ## C1 — time validator -/

/-- C1: for fixed `now`, `validate_prediction_request` yields exactly one
of the four outcomes; `FUTURE_TIME` iff `target > now`, `TIME_TOO_RECENT`
iff `now - 30 min < target ≤ now`, `TIME_TOO_OLD` iff
`target < now - 90 days`, valid iff `now - 90 days ≤ target ≤ now - 30 min`
(so the windows are pairwise disjoint and cover all target times); in
particular `now - 45 min` is valid, `now + 5 min` is FUTURE_TIME,
`now - 10 min` is TIME_TOO_RECENT and `now - 100 days` is TIME_TOO_OLD. -/
theorem C1_validator_windows (now target : Int) :
    (validate_prediction_request now target = .FUTURE_TIME ↔ now < target) ∧
    (validate_prediction_request now target = .TIME_TOO_RECENT ↔
      now - minutesTD 30 < target ∧ target ≤ now) ∧
    (validate_prediction_request now target = .TIME_TOO_OLD ↔ target < now - daysTD 90) ∧
    (validate_prediction_request now target = .valid ↔
      now - daysTD 90 ≤ target ∧ target ≤ now - minutesTD 30) ∧
    validate_prediction_request now (now - minutesTD 45) = .valid ∧
    validate_prediction_request now (now + minutesTD 5) = .FUTURE_TIME ∧
    validate_prediction_request now (now - minutesTD 10) = .TIME_TOO_RECENT ∧
    validate_prediction_request now (now - daysTD 100) = .TIME_TOO_OLD := by
  unfold validate_prediction_request minutesTD daysTD
  refine ⟨?_, ?_, ?_, ?_, ?_, ?_, ?_, ?_⟩ <;>
    split_ifs <;> simp_all <;> omega

/-! ## C7 — weather source selection -/

/-- C7: `fetch_weather_at_time` selects the upstream source purely by
calendar-date comparison: forecast iff the target's local date is today
or later, archive iff it is strictly earlier; the time-of-day part of
the instant never influences the choice. -/
theorem C7_weather_source_selection (now target : LocalDateTime) :
    (fetch_weather_at_time_source now target = .forecast ↔ now.date ≤ target.date) ∧
    (fetch_weather_at_time_source now target = .archive ↔ target.date < now.date) ∧
    (∀ d tod tod', fetch_weather_at_time_source now ⟨d, tod⟩ =
      fetch_weather_at_time_source now ⟨d, tod'⟩) := by
  unfold fetch_weather_at_time_source
  refine ⟨?_, ?_, fun d tod tod' => rfl⟩ <;> split_ifs <;> simp_all

/-! ## C8 — CacheManager.clear -/

/-- A cache holding one entry, to exhibit `clear`'s return value. -/
def c8State : CacheManager Nat Nat := (CacheManager.init 10).set 1 2 0

/-- C8 (counterexample): on a cache with one entry, `clear()` does not
return the count of removed entries — the Python method has no `return`
statement, so the caller receives `None`, not `1`. -/
theorem C8_clear_counterexample : (c8State.clear).1 ≠ some c8State.cache.length := by
  decide

/-- C8 (amended): `clear()` empties all entries — the value map, the
timestamp map and the access counters all become empty, the capacity is
kept — and returns `None`; the count of removed entries is only logged,
never returned. -/
theorem C8_clear_amended {K V : Type} (s : CacheManager K V) :
    (s.clear).2.cache = [] ∧ (s.clear).2.timestamps = [] ∧
    (s.clear).2.access_count = [] ∧ (s.clear).2.max_size = s.max_size ∧
    (s.clear).1 = none :=
  ⟨rfl, rfl, rfl, rfl, rfl⟩

/-! ## C6 — per-district exception handling -/

/-- C6: an exception anywhere in the fetch/feature/scale/predict
pipeline is caught by `predict_pm25_for_district` and converted into a
failure result carrying the district's id and name, the error message
and the exception's class name; for every pipeline outcome the function
returns a result (it never propagates the exception), so one district's
failure cannot abort a batch that calls it per district. -/
theorem C6_predictor_catches_exceptions (d : District) (e : PyError) :
    predict_pm25_for_district d (Except.error e) =
      .failure { id := d.id, name := d.name, name_en := d.name_en, lat := d.lat, lon := d.lon,
                 error := e.msg, error_type := e.error_type } ∧
    ∀ pipeline, (∃ r, predict_pm25_for_district d pipeline = .success r) ∨
      (∃ err, predict_pm25_for_district d pipeline = .failure err ∧
        err.id = d.id ∧ err.name = d.name) := by
  refine ⟨rfl, fun pipeline => ?_⟩
  cases pipeline with
  | ok p => exact Or.inl ⟨_, rfl⟩
  | error e' => exact Or.inr ⟨_, rfl, rfl, rfl⟩

/-! ## C2 — feature scenario -/

/-- A snapshot row for the C2 scenario: index key `k`, hour `h`,
pm2_5 `p`, every other measurement a fixed non-null value. -/
def rowC2 (k : Int) (h : Nat) (p : ℚ) : Row :=
  { key := k, hour := h, dayofweek := 2, month := 6, pm2_5 := p, so2 := 1, co := 2,
    shortwave_radiation := 3, temperature_2m := 25, relative_humidity_2m := 70,
    precipitation := 0, pressure_msl := 1010, windspeed_10m := 4, winddirection_10m := 90,
    no := 1, no2 := 1, o3 := 1, pm10 := 12, nh3 := 1 }

/-- C2: for every 3-row time-ordered window whose pm2_5 column is
[10, 20, 30] at t-2, t-1, t-0 — the index keys in order and every other
required field an arbitrary (non-null) value — and for every float
`sqrt`/`sin`/`cos` implementation, `create_features_from_3hours`
returns a single feature row with `pm2_5_lag_1 = 20`,
`pm2_5_lag_2 = 10`, `pm2_5_roll_avg_3hr = 20` and
`pm2_5_diff_1hr = 10`. -/
theorem C2_feature_scenario (sqrtF sin2pi cos2pi : ℚ → ℚ) (r0 r1 r2 : Row)
    (hk01 : r0.key ≤ r1.key) (hk12 : r1.key ≤ r2.key)
    (hp0 : r0.pm2_5 = 10) (hp1 : r1.pm2_5 = 20) (hp2 : r2.pm2_5 = 30) :
    (create_features_from_3hours sqrtF sin2pi cos2pi [r0, r1, r2]).map
      (fun fr => (fr.pm2_5_lag_1, fr.pm2_5_lag_2, fr.pm2_5_roll_avg_3hr, fr.pm2_5_diff_1hr)) =
      .ok (some 20, some 10, 20, some 10) := by
  have hsort : sortRows [r0, r1, r2] = [r0, r1, r2] := by
    simp [sortRows, List.insertionSort, List.orderedInsert, hk01, hk12]
  unfold create_features_from_3hours
  rw [if_neg (by simp), hsort]
  show (Except.ok (mkFeatureRow sqrtF sin2pi cos2pi [r0, r1, r2] 2 r2) :
      Except String FeatureRow).map
      (fun fr => (fr.pm2_5_lag_1, fr.pm2_5_lag_2, fr.pm2_5_roll_avg_3hr, fr.pm2_5_diff_1hr)) =
      .ok (some 20, some 10, 20, some 10)
  simp only [Except.map]
  simp [mkFeatureRow, shiftCell, diffCell, windowSlice, listMean, hp0, hp1, hp2]
  norm_num

/-- Witness for C2: a concrete time-ordered window (keys 0/1/2, hours
8/9/10) with pm2_5 = [10, 20, 30] and fixed values for the other
fields. -/
theorem C2_feature_scenario_witness :
    (create_features_from_3hours id id id
        [rowC2 0 8 10, rowC2 1 9 20, rowC2 2 10 30]).map
      (fun fr => (fr.pm2_5_lag_1, fr.pm2_5_lag_2, fr.pm2_5_roll_avg_3hr, fr.pm2_5_diff_1hr)) =
      .ok (some 20, some 10, 20, some 10) :=
  C2_feature_scenario id id id (rowC2 0 8 10) (rowC2 1 9 20) (rowC2 2 10 30)
    (by decide) (by decide) rfl rfl rfl

/-! ## C10 — no mutation of the input frame -/

/-- C10: `create_features_from_3hours` never mutates its input: run over
an explicit object store, every pre-existing frame — in particular the
input frame — is unchanged (the stores only grow at the end), all
derivation happens on freshly allocated frames, and the returned
single-row frame is a newly constructed object (its address is past
every pre-existing one). -/
theorem C10_no_input_mutation (sqrtF sin2pi cos2pi : ℚ → ℚ) (rowStore : List (List Row))
    (featStore : List (List FeatureRow)) (inputAddr : Nat) :
    (create_features_heap sqrtF sin2pi cos2pi rowStore featStore inputAddr).1.take
        rowStore.length = rowStore ∧
    (create_features_heap sqrtF sin2pi cos2pi rowStore featStore inputAddr).2.1.take
        featStore.length = featStore ∧
    okSat (create_features_heap sqrtF sin2pi cos2pi rowStore featStore inputAddr).2.2
      (fun a => featStore.length ≤ a) := by
  refine ⟨?_, ?_, ?_⟩
  · simp only [create_features_heap]
    split
    · simp
    · split <;> (rw [List.append_assoc]; exact take_append_self _ _)
  · simp only [create_features_heap, set_append_length]
    split
    · simp
    · split
      · dsimp only; rw [List.append_assoc]; exact take_append_self _ _
      · dsimp only; rw [List.append_assoc, List.append_assoc]; exact take_append_self _ _
  · simp only [create_features_heap, set_append_length]
    split
    · simp [okSat]
    · split
      · simp [okSat]
      · simp only [okSat, List.length_append, List.length_cons, List.length_nil]
        omega

/-! ## Cache lemmas (for the TTL, eviction and capacity claims) -/

namespace CacheManager

theorem rankLe_refl (a : Nat × Int) : rankLe a a := by simp [rankLe]

theorem rankLe_trans {a b c : Nat × Int} (h1 : rankLe a b) (h2 : rankLe b c) : rankLe a c := by
  simp only [rankLe] at h1 h2 ⊢
  omega

theorem rankLtB_true_le {a b : Nat × Int} (h : rankLtB a b = true) : rankLe a b := by
  simp only [rankLtB, decide_eq_true_eq] at h
  simp only [rankLe]
  omega

theorem rankLtB_false_le {a b : Nat × Int} (h : rankLtB a b = false) : rankLe b a := by
  simp only [rankLtB, decide_eq_false_iff_not] at h
  simp only [rankLe]
  omega

/-- The result of the fold inside `lruEntry` is one of the items. -/
theorem foldl_pickMin_mem {α : Type} (f : α → Nat × Int) (t : α) (ts : List α) :
    ts.foldl (fun best p => if rankLtB (f p) (f best) then p else best) t ∈ t :: ts := by
  induction ts generalizing t with
  | nil => exact List.mem_cons_self t []
  | cons q ts ih =>
    simp only [List.foldl_cons]
    by_cases hq : rankLtB (f q) (f t)
    · rw [if_pos hq]
      exact List.mem_cons_of_mem t (ih q)
    · rw [if_neg hq]
      rcases List.mem_cons.mp (ih t) with h1 | h2
      · rw [h1]; exact List.mem_cons_self t _
      · exact List.mem_cons_of_mem t (List.mem_cons_of_mem q h2)

/-- The result of the fold inside `lruEntry` has minimal rank. -/
theorem foldl_pickMin_le {α : Type} (f : α → Nat × Int) (t : α) (ts : List α) :
    ∀ p ∈ t :: ts,
      rankLe (f (ts.foldl (fun best p => if rankLtB (f p) (f best) then p else best) t)) (f p) := by
  induction ts generalizing t with
  | nil =>
    intro p hp
    rcases List.mem_cons.mp hp with rfl | h
    · exact rankLe_refl _
    · simp at h
  | cons q ts ih =>
    intro p hp
    simp only [List.foldl_cons]
    have hself := ih (if rankLtB (f q) (f t) then q else t) _
      (List.mem_cons_self (if rankLtB (f q) (f t) then q else t) ts)
    have hpair : rankLe
        (f (ts.foldl (fun best p => if rankLtB (f p) (f best) then p else best)
          (if rankLtB (f q) (f t) then q else t))) (f t) ∧
        rankLe
        (f (ts.foldl (fun best p => if rankLtB (f p) (f best) then p else best)
          (if rankLtB (f q) (f t) then q else t))) (f q) := by
      by_cases hq : rankLtB (f q) (f t)
      · exact ⟨rankLe_trans (by simpa [hq] using hself) (rankLtB_true_le hq),
          by simpa [hq] using hself⟩
      · exact ⟨by simpa [hq] using hself,
          rankLe_trans (by simpa [hq] using hself)
            (rankLtB_false_le (by simpa using hq))⟩
    rcases List.mem_cons.mp hp with hpt | hp'
    · rw [hpt]
      exact hpair.1
    · rcases List.mem_cons.mp hp' with hpq | hp''
      · rw [hpq]
        exact hpair.2
      · exact ih _ p (List.mem_cons_of_mem _ hp'')

variable {K V : Type} [DecidableEq K]

/-- `lruEntry` of a state with non-empty `timestamps`: it is one of the
timestamp items and has minimal `(access_count, timestamp)` rank. -/
theorem lruEntry_spec (s : CacheManager K V) (hne : s.timestamps ≠ []) :
    ∃ t, s.lruEntry = some t ∧ t ∈ s.timestamps ∧
      ∀ p ∈ s.timestamps, rankLe (s.rankOf t) (s.rankOf p) := by
  obtain ⟨t0, ts, h⟩ := List.exists_cons_of_ne_nil hne
  refine ⟨ts.foldl
      (fun best p => if rankLtB (s.rankOf p) (s.rankOf best) then p else best) t0,
    by simp [lruEntry, h], ?_, ?_⟩
  · rw [h]
    exact foldl_pickMin_mem s.rankOf t0 ts
  · rw [h]
    exact foldl_pickMin_le s.rankOf t0 ts

/-- Key synchronization + uniqueness: the state invariant that every
reachable `CacheManager` satisfies, plus the capacity bound. -/
def goodState (s : CacheManager K V) : Prop :=
  s.cache.map Prod.fst = s.timestamps.map Prod.fst ∧
  (s.cache.map Prod.fst).Nodup ∧
  s.cache.length ≤ s.max_size

theorem remove_spec (s : CacheManager K V) (k : K)
    (hsync : s.cache.map Prod.fst = s.timestamps.map Prod.fst)
    (hnd : (s.cache.map Prod.fst).Nodup) :
    (s._remove k).cache.map Prod.fst = (s._remove k).timestamps.map Prod.fst ∧
    ((s._remove k).cache.map Prod.fst).Nodup ∧
    (s._remove k).cache.length ≤ s.cache.length ∧
    (s._remove k).max_size = s.max_size := by
  refine ⟨?_, ?_, ?_, rfl⟩
  · simp only [_remove, dictPop_map_fst, hsync]
  · simp only [_remove, dictPop_map_fst]
    exact hnd.filter _
  · have h1 : ((dictPop s.cache k).map Prod.fst).length ≤ (s.cache.map Prod.fst).length := by
      rw [dictPop_map_fst]
      exact (List.filter_sublist _).length_le
    simpa using h1

theorem setRaw_spec (s : CacheManager K V) (k : K) (v : V) (now : Int)
    (hsync : s.cache.map Prod.fst = s.timestamps.map Prod.fst)
    (hnd : (s.cache.map Prod.fst).Nodup) :
    (s.setRaw k v now).cache.map Prod.fst = (s.setRaw k v now).timestamps.map Prod.fst ∧
    ((s.setRaw k v now).cache.map Prod.fst).Nodup ∧
    (s.setRaw k v now).cache.length ≤ s.cache.length + 1 ∧
    (s.setRaw k v now).max_size = s.max_size := by
  refine ⟨?_, ?_, ?_, rfl⟩
  · simp only [setRaw, dictSet_map_fst, hsync]
  · simp only [setRaw, dictSet_map_fst]
    split
    · exact hnd
    · next hmem => simp [List.nodup_append, hnd, hmem]
  · simp only [setRaw, dictSet_length]
    split <;> omega

/-- Evicting from a full, well-formed cache removes exactly one entry:
the one whose `(access_count, timestamp)` pair is minimal. -/
theorem evict_spec (s : CacheManager K V)
    (hsync : s.cache.map Prod.fst = s.timestamps.map Prod.fst)
    (hnd : (s.cache.map Prod.fst).Nodup)
    (hne : s.cache ≠ []) :
    ∃ t, s.lruEntry = some t ∧ t ∈ s.timestamps ∧
      (∀ p ∈ s.timestamps, rankLe (s.rankOf t) (s.rankOf p)) ∧
      s._evict_lru = s._remove t.1 ∧
      (s._evict_lru).cache.length + 1 = s.cache.length := by
  have hts : s.timestamps ≠ [] := by
    intro hc
    apply hne
    have h0 : s.cache.map Prod.fst = [] := by rw [hsync, hc]; rfl
    exact List.map_eq_nil_iff.mp h0
  obtain ⟨t, hlru, hmem, hmin⟩ := lruEntry_spec s hts
  have hev : s._evict_lru = s._remove t.1 := by
    have hempty : s.cache.isEmpty = false := by
      cases hcc : s.cache with
      | nil => exact absurd hcc hne
      | cons a l => rfl
    simp [_evict_lru, hempty, hlru]
  refine ⟨t, hlru, hmem, hmin, hev, ?_⟩
  rw [hev]
  have hkmem : t.1 ∈ s.cache.map Prod.fst := by
    rw [hsync]
    exact List.mem_map_of_mem Prod.fst hmem
  exact dictPop_length_of_mem s.cache t.1 hnd hkmem

/-- `set` preserves the invariant (given a positive capacity). -/
theorem set_good (s : CacheManager K V) (k : K) (v : V) (now : Int)
    (hpos : 1 ≤ s.max_size) (h : goodState s) :
    goodState (s.set k v now) ∧ (s.set k v now).max_size = s.max_size := by
  obtain ⟨hsync, hnd, hlen⟩ := h
  by_cases hfull : s.max_size ≤ s.cache.length
  · have hlen_eq : s.cache.length = s.max_size := le_antisymm hlen hfull
    have hne : s.cache ≠ [] := by
      intro hc
      rw [hc] at hlen_eq
      simp at hlen_eq
      omega
    obtain ⟨t, _, _, _, hev, hevlen⟩ := evict_spec s hsync hnd hne
    have hrm := remove_spec s t.1 hsync hnd
    rw [hev] at hevlen
    have hs1 := setRaw_spec (s._remove t.1) k v now hrm.1 hrm.2.1
    have hset : s.set k v now = (s._remove t.1).setRaw k v now := by
      simp [set, hfull, hev]
    rw [hset]
    refine ⟨⟨hs1.1, hs1.2.1, ?_⟩, hs1.2.2.2⟩
    have h2 := hs1.2.2.1
    have h3 : (((s._remove t.1).setRaw k v now)).max_size = s.max_size := hs1.2.2.2
    omega
  · have hs1 := setRaw_spec s k v now hsync hnd
    have hset : s.set k v now = s.setRaw k v now := by
      simp [set, hfull]
    rw [hset]
    exact ⟨⟨hs1.1, hs1.2.1, by omega⟩, hs1.2.2.2⟩

/-- `get` preserves the invariant. -/
theorem get_good (s : CacheManager K V) (k : K) (ttl now : Int) (h : goodState s) :
    goodState ((s.get k ttl now).2) ∧ ((s.get k ttl now).2).max_size = s.max_size := by
  obtain ⟨hsync, hnd, hlen⟩ := h
  unfold get
  cases hm : dictGet? s.cache k with
  | none => exact ⟨⟨hsync, hnd, hlen⟩, rfl⟩
  | some v =>
    dsimp only
    split
    · exact ⟨⟨hsync, hnd, hlen⟩, rfl⟩
    · have hrm := remove_spec s k hsync hnd
      exact ⟨⟨hrm.1, hrm.2.1, le_trans hrm.2.2.1 hlen⟩, hrm.2.2.2⟩

/-- Every operation preserves the invariant. -/
theorem runOp_good (s : CacheManager K V) (op : CacheOp K V)
    (hpos : 1 ≤ s.max_size) (h : goodState s) :
    goodState (runOp s op) ∧ (runOp s op).max_size = s.max_size := by
  cases op with
  | get k ttl now => exact get_good s k ttl now h
  | set k v now => exact set_good s k v now hpos h
  | clear => exact ⟨⟨rfl, List.nodup_nil, Nat.zero_le _⟩, rfl⟩

/-- Sequences of operations preserve the invariant. -/
theorem runOps_good (ops : List (CacheOp K V)) (s : CacheManager K V)
    (hpos : 1 ≤ s.max_size) (h : goodState s) :
    goodState (runOps s ops) ∧ (runOps s ops).max_size = s.max_size := by
  induction ops generalizing s with
  | nil => exact ⟨h, rfl⟩
  | cons op ops ih =>
    have h1 := runOp_good s op hpos h
    have h2 := ih (runOp s op) (h1.2 ▸ hpos) h1.1
    exact ⟨h2.1, h2.2.trans h1.2⟩

end CacheManager

/-! ## C3 — cache TTL behaviour -/

/-- C3: after `set(key, value)` at time `T`, a `get(key, ttl)` at time
`now` with `now - T < ttl` is a hit returning the stored value, while a
`get` with `now - T ≥ ttl` is a miss returning `None` that, as a side
effect, removes the key together with its timestamp and its access
counter from the cache. -/
theorem C3_cache_ttl {K V : Type} [DecidableEq K] (s : CacheManager K V) (k : K) (v : V)
    (T ttl now : Int) :
    (now - T < ttl → (((s.set k v T).get k ttl now)).1 = some v) ∧
    (ttl ≤ now - T →
      (((s.set k v T).get k ttl now)).1 = none ∧
      dictGet? (((s.set k v T).get k ttl now)).2.cache k = none ∧
      dictGet? (((s.set k v T).get k ttl now)).2.timestamps k = none ∧
      dictGet? (((s.set k v T).get k ttl now)).2.access_count k = none) := by
  have hc : dictGet? (s.set k v T).cache k = some v := by
    simp [CacheManager.set, CacheManager.setRaw, dictGet?_dictSet_self]
  have ht : dictGet? (s.set k v T).timestamps k = some T := by
    simp [CacheManager.set, CacheManager.setRaw, dictGet?_dictSet_self]
  constructor
  · intro h
    simp [CacheManager.get, hc, ht, h]
  · intro h
    have hnot : ¬ (now - T < ttl) := by omega
    simp [CacheManager.get, hc, ht, hnot, CacheManager._remove,
      dictGet?_dictPop_self]

/-- Witness for C3 at a concrete cache: key 1 set to 7 at time 0 with
TTL 10 hits at time 3 and misses (and is fully purged) at time 12. -/
theorem C3_cache_ttl_witness :
    ((((CacheManager.init 10 : CacheManager Nat Nat).set 1 7 0).get 1 10 3)).1 = some 7 ∧
    (((((CacheManager.init 10 : CacheManager Nat Nat).set 1 7 0).get 1 10 12)).1 = none ∧
      dictGet? (((((CacheManager.init 10 : CacheManager Nat Nat).set 1 7 0).get 1 10 12)).2.cache)
        1 = none ∧
      dictGet?
        (((((CacheManager.init 10 : CacheManager Nat Nat).set 1 7 0).get 1 10 12)).2.timestamps)
        1 = none ∧
      dictGet?
        (((((CacheManager.init 10 : CacheManager Nat Nat).set 1 7 0).get 1 10 12)).2.access_count)
        1 = none) :=
  ⟨(C3_cache_ttl (CacheManager.init 10) 1 7 0 10 3).1 (by decide),
   (C3_cache_ttl (CacheManager.init 10) 1 7 0 10 12).2 (by decide)⟩

/-! ## C9 — capacity never exceeded -/

/-- C9: from an empty `CacheManager` with `max_size ≥ 1`, every state
reachable by any sequence of `get`, `set` and `clear` operations has at
most `max_size` entries: `set` evicts one entry whenever the current
size is at least `max_size` before inserting, so no operation grows the
cache beyond its capacity. -/
theorem C9_capacity_invariant {K V : Type} [DecidableEq K] (n : Nat)
    (ops : List (CacheOp K V)) (hn : 1 ≤ n) :
    (runOps (CacheManager.init n) ops).cache.length ≤ n := by
  have hgood : CacheManager.goodState (CacheManager.init n : CacheManager K V) :=
    ⟨rfl, List.nodup_nil, Nat.zero_le _⟩
  have h := CacheManager.runOps_good ops (CacheManager.init n) hn hgood
  have hm : (runOps (CacheManager.init n : CacheManager K V) ops).max_size = n := h.2
  have := h.1.2.2
  omega

/-- Witness for C9: a concrete operation sequence on a capacity-2 cache
(three inserts, a hit, a clear) ends with at most 2 entries. -/
theorem C9_capacity_invariant_witness :
    (runOps (CacheManager.init 2 : CacheManager Nat Nat)
      [CacheOp.set 1 10 0, CacheOp.set 2 20 1, CacheOp.set 3 30 2,
       CacheOp.get 2 100 3, CacheOp.clear]).cache.length ≤ 2 :=
  C9_capacity_invariant 2
    [CacheOp.set 1 10 0, CacheOp.set 2 20 1, CacheOp.set 3 30 2,
     CacheOp.get 2 100 3, CacheOp.clear] (by decide)


/-! ## C4 — LFU/LRU eviction -/

theorem dictSet_append_of_not_mem {K V : Type} [DecidableEq K] (l : List (K × V)) (k : K)
    (v : V) (h : k ∉ l.map Prod.fst) : dictSet l k v = l ++ [(k, v)] := by
  induction l with
  | nil => rfl
  | cons p rest ih =>
    simp only [List.map_cons, List.mem_cons] at h
    push_neg at h
    have hp : ¬ p.1 = k := fun hc => h.1 hc.symm
    simp [dictSet, hp, ih h.2]

/-- Python's `min` keeps the start element when nothing later is
strictly smaller. -/
theorem foldl_pickMin_of_first {α : Type} (f : α → Nat × Int) (t : α) (ts : List α)
    (h : ∀ p ∈ ts, CacheManager.rankLtB (f p) (f t) = false) :
    ts.foldl (fun best p => if CacheManager.rankLtB (f p) (f best) then p else best) t = t := by
  induction ts with
  | nil => rfl
  | cons q ts ih =>
    simp only [List.foldl_cons, h q (List.mem_cons_self q ts), Bool.false_eq_true, if_false]
    exact ih (fun p hp => h p (List.mem_cons_of_mem q hp))

/-- Appending one fresh key to a uniformly built association list. -/
theorem map_mk_append_range {β : Type} (g : Nat → β) (m : Nat) :
    (List.range m).map (fun i => (i, g i)) ++ [(m, g m)] =
      (List.range (m + 1)).map (fun i => (i, g i)) := by
  rw [List.range_succ, List.map_append]
  rfl

/-- Inserting the distinct keys `0 … m-1` (values `100+i`, insertion
times `i`) into an empty capacity-`n` cache. -/
def insertSeqC4 (n m : Nat) : CacheManager Nat Nat :=
  (List.range m).foldl (fun s i => s.set i (100 + i) (i : Int)) (CacheManager.init n)

theorem insertSeqC4_spec (n m : Nat) (hm : m ≤ n) :
    insertSeqC4 n m =
      { cache := (List.range m).map (fun i => (i, 100 + i)),
        timestamps := (List.range m).map (fun i => (i, (i : Int))),
        access_count := (List.range m).map (fun i => (i, 0)),
        max_size := n } := by
  induction m with
  | zero => rfl
  | succ m ih =>
    have hm' : m ≤ n := by omega
    have hstep : insertSeqC4 n (m + 1) =
        (insertSeqC4 n m).set m (100 + m) ((m : Nat) : Int) := by
      unfold insertSeqC4
      rw [List.range_succ, List.foldl_append]
      rfl
    rw [hstep, ih hm']
    have hnotmem : ∀ β (g : Nat → β),
        (m : Nat) ∉ ((List.range m).map (fun i => (i, g i))).map Prod.fst := by
      intro β g
      simp
    simp only [CacheManager.set]
    rw [if_neg (by simp; omega)]
    simp only [CacheManager.setRaw]
    congr 1
    · rw [dictSet_append_of_not_mem _ _ _ (hnotmem _ _), map_mk_append_range]
    · rw [dictSet_append_of_not_mem _ _ _ (hnotmem _ _), map_mk_append_range]
    · rw [dictSet_append_of_not_mem _ _ _ (hnotmem _ _), map_mk_append_range]

/-- The keys surviving the capacity+1-st insertion: `1 … n'+1`. -/
def c4Keys (m : Nat) : List Nat := (List.range m).map Nat.succ ++ [m + 1]

theorem c4_filter_range (m : Nat) :
    (List.range (m + 1)).filter (fun i => decide (i ≠ 0)) = (List.range m).map Nat.succ := by
  rw [List.range_succ_eq_map, List.filter_cons]
  rw [if_neg (by simp)]
  apply List.filter_eq_self.mpr
  intro x hx
  rcases List.mem_map.mp hx with ⟨j, _, rfl⟩
  simp

/-- The `capacity + 1`-st insert into a full cache of untouched entries
evicts key 0 (all access counters are 0, key 0 has the oldest
timestamp) and appends the new key. -/
theorem insertSeqC4_final (m : Nat) :
    insertSeqC4 (m + 1) (m + 2) =
      { cache := (c4Keys m).map (fun i => (i, 100 + i)),
        timestamps := (c4Keys m).map (fun i => (i, (i : Int))),
        access_count := (c4Keys m).map (fun i => (i, 0)),
        max_size := m + 1 } := by
  have hstate := insertSeqC4_spec (m + 1) (m + 1) (le_refl _)
  have hstep : insertSeqC4 (m + 1) (m + 2) =
      (insertSeqC4 (m + 1) (m + 1)).set (m + 1) (100 + (m + 1)) (((m + 1 : Nat)) : Int) := by
    unfold insertSeqC4
    rw [List.range_succ, List.foldl_append]
    rfl
  set S : CacheManager Nat Nat :=
    { cache := (List.range (m + 1)).map (fun i => (i, 100 + i)),
      timestamps := (List.range (m + 1)).map (fun i => (i, (i : Int))),
      access_count := (List.range (m + 1)).map (fun i => (i, 0)),
      max_size := m + 1 } with hS
  rw [hstep, hstate]
  -- every access counter reads 0, so the rank of a timestamp item is (0, its time)
  have hrank : ∀ p : Nat × Int, S.rankOf p = (0, p.2) := by
    intro p
    unfold CacheManager.rankOf
    rw [hS]
    dsimp only
    rw [dictGet?_map_mk]
    split <;> rfl
  -- the head item (0, 0) of `timestamps` is never beaten strictly
  have hts : S.timestamps =
      (0, (0 : Int)) :: ((List.range m).map Nat.succ).map (fun i => ((i : Nat), (i : Int))) := by
    rw [hS]
    dsimp only
    rw [List.range_succ_eq_map, List.map_cons, List.map_map]
    rfl
  have hlru : S.lruEntry = some (0, (0 : Int)) := by
    unfold CacheManager.lruEntry
    rw [hts]
    dsimp only
    rw [foldl_pickMin_of_first]
    intro p hp
    rcases List.mem_map.mp hp with ⟨x, hx, rfl⟩
    rcases List.mem_map.mp hx with ⟨j, _, rfl⟩
    rw [hrank, hrank]
    simp [CacheManager.rankLtB]
    omega
  -- the eviction removes exactly key 0
  have hne : S.cache.isEmpty = false := by
    rw [hS]
    dsimp only
    rw [List.range_succ_eq_map]
    simp
  have hev : S._evict_lru = S._remove 0 := by
    unfold CacheManager._evict_lru
    rw [hlru, hne]
    rfl
  have hrm : S._remove 0 =
      { cache := ((List.range m).map Nat.succ).map (fun i => (i, 100 + i)),
        timestamps := ((List.range m).map Nat.succ).map (fun i => (i, (i : Int))),
        access_count := ((List.range m).map Nat.succ).map (fun i => (i, 0)),
        max_size := m + 1 } := by
    unfold CacheManager._remove
    rw [hS]
    dsimp only
    congr 1 <;> rw [dictPop_map_mk, c4_filter_range]
  have hfresh : ∀ β (g : Nat → β),
      (m + 1) ∉ (((List.range m).map Nat.succ).map (fun i => (i, g i))).map Prod.fst := by
    intro β g
    simp only [List.map_map, List.mem_map, Function.comp]
    rintro ⟨j, hj, hjeq⟩
    have : j + 1 = m + 1 := hjeq
    have : j = m := by omega
    subst this
    exact absurd hj (by simp)
  have hfull : S.max_size ≤ S.cache.length := by
    rw [hS]
    simp
  simp only [CacheManager.set]
  rw [if_pos hfull, hev, hrm]
  simp only [CacheManager.setRaw]
  congr 1 <;>
    · rw [dictSet_append_of_not_mem _ _ _ (hfresh _ _)]
      rw [c4Keys, List.map_append]
      rfl

/-- A full (capacity 2) well-formed cache for the C4 witness. -/
def c4StateW : CacheManager Nat Nat := ((CacheManager.init 2).set 10 1 0).set 11 2 1

/-- C4: on a full cache (`len(cache) ≥ max_size`), `set(key, value)`
first evicts exactly one entry — one with minimal
`(access_count, insertion timestamp)` pair, i.e. least-frequently
accessed with ties broken by oldest — and then inserts the new key with
access counter reset to 0 and the fresh timestamp; consequently,
inserting `capacity + 1` distinct keys into an empty cache evicts
exactly the oldest untouched entry (key 0) and every other key remains
retrievable with its value. -/
theorem C4_lru_eviction :
    (∀ (K V : Type) [DecidableEq K] (s : CacheManager K V) (k : K) (v : V) (now : Int),
      s.max_size ≤ s.cache.length →
      s.cache.map Prod.fst = s.timestamps.map Prod.fst →
      (s.cache.map Prod.fst).Nodup →
      1 ≤ s.max_size →
      ∃ t : K × Int,
        s.lruEntry = some t ∧ t ∈ s.timestamps ∧
        (∀ p ∈ s.timestamps, CacheManager.rankLe (s.rankOf t) (s.rankOf p)) ∧
        s.set k v now = (s._remove t.1).setRaw k v now ∧
        (s._remove t.1).cache.length + 1 = s.cache.length ∧
        dictGet? (s.set k v now).cache k = some v ∧
        dictGet? (s.set k v now).timestamps k = some now ∧
        dictGet? (s.set k v now).access_count k = some 0) ∧
    (∀ n : Nat, 1 ≤ n →
      (insertSeqC4 n (n + 1)).cache.length = n ∧
      dictGet? (insertSeqC4 n (n + 1)).cache 0 = none ∧
      dictGet? (insertSeqC4 n (n + 1)).timestamps 0 = none ∧
      dictGet? (insertSeqC4 n (n + 1)).access_count 0 = none ∧
      ∀ j : Nat, 1 ≤ j → j ≤ n →
        ((insertSeqC4 n (n + 1)).get j (2 * (n : Int) + 2) (n : Int)).1 = some (100 + j)) := by
  constructor
  · intro K V instK s k v now hfull hsync hnd hpos
    have hne : s.cache ≠ [] := by
      intro hc
      rw [hc] at hfull
      simp at hfull
      omega
    obtain ⟨t, hlru, hmem, hmin, hev, hevlen⟩ := CacheManager.evict_spec s hsync hnd hne
    refine ⟨t, hlru, hmem, hmin, ?_, ?_, ?_, ?_, ?_⟩
    · simp [CacheManager.set, hfull, hev]
    · rw [← hev]
      exact hevlen
    · simp [CacheManager.set, CacheManager.setRaw, dictGet?_dictSet_self]
    · simp [CacheManager.set, CacheManager.setRaw, dictGet?_dictSet_self]
    · simp [CacheManager.set, CacheManager.setRaw, dictGet?_dictSet_self]
  · intro n hn
    obtain ⟨m, rfl⟩ : ∃ m, n = m + 1 := ⟨n - 1, by omega⟩
    have hfin := insertSeqC4_final m
    have h0 : (0 : Nat) ∉ c4Keys m := by
      simp [c4Keys]
    refine ⟨?_, ?_, ?_, ?_, ?_⟩
    · rw [hfin]
      simp [c4Keys]
    · rw [hfin]
      dsimp only
      rw [dictGet?_map_mk, if_neg h0]
    · rw [hfin]
      dsimp only
      rw [dictGet?_map_mk, if_neg h0]
    · rw [hfin]
      dsimp only
      rw [dictGet?_map_mk, if_neg h0]
    · intro j hj1 hj2
      have hjmem : j ∈ c4Keys m := by
        simp only [c4Keys, List.mem_append, List.mem_map, List.mem_range, List.mem_singleton]
        rcases Nat.lt_or_ge j (m + 1) with h | h
        · exact Or.inl ⟨j - 1, by omega, by omega⟩
        · exact Or.inr (by omega)
      rw [hfin]
      unfold CacheManager.get
      dsimp only
      rw [dictGet?_map_mk, if_pos hjmem]
      dsimp only
      rw [dictGet?_map_mk, if_pos hjmem, Option.getD_some]
      rw [if_pos (by push_cast; omega)]

/-- Witness for C4: on the full capacity-2 cache `c4StateW`, `set`
evicts one entry and stores the new key; inserting 3 distinct keys into
an empty capacity-2 cache leaves 2 entries, key 0 evicted, key 1 still
retrievable. -/
theorem C4_lru_eviction_witness :
    (∃ t : Nat × Int, c4StateW.lruEntry = some t) ∧
    dictGet? ((c4StateW.set 5 9 99)).cache 5 = some 9 ∧
    (insertSeqC4 2 3).cache.length = 2 ∧
    dictGet? (insertSeqC4 2 3).cache 0 = none ∧
    ((insertSeqC4 2 3).get 1 6 2).1 = some 101 := by
  obtain ⟨t, h1, h2, h3, h4, h5, h6, h7, h8⟩ :=
    C4_lru_eviction.1 Nat Nat c4StateW 5 9 99 (by decide) (by decide) (by decide) (by decide)
  have hs := C4_lru_eviction.2 2 (by decide)
  exact ⟨⟨t, h1⟩, h6, hs.1, hs.2.1, hs.2.2.2.2 1 (by decide) (by decide)⟩

/-! ## C5 — batch partition, ordering and statistics -/

/-- `result['status'] == 'success'` on the pipeline outcome. -/
def isOkB {ε α : Type} : Except ε α → Bool
  | .ok _ => true
  | .error _ => false

/-- The payload of an `ok` outcome (default otherwise). -/
def payloadD {ε α : Type} (d : α) : Except ε α → α
  | .ok a => a
  | .error _ => d

/-- The error of an `error` outcome (default otherwise). -/
def errorD {ε α : Type} (d : ε) : Except ε α → ε
  | .ok _ => d
  | .error e => e

/-- The success record `predict_pm25_for_district` builds for district
`d` when its pipeline succeeds. -/
def successOf (d : District) (e : Except PyError PredPayload) : SuccessResult :=
  { id := d.id, name := d.name, name_en := d.name_en, lat := d.lat, lon := d.lon,
    pm25_prediction := pyRound2 ((payloadD { prediction := 0 } e).prediction),
    population := d.population, area_km2 := d.area_km2, district_type := d.district_type }

/-- The error record `predict_pm25_for_district` builds for district `d`
when its pipeline raises. -/
def failureOf (d : District) (e : Except PyError PredPayload) : ErrorResult :=
  { id := d.id, name := d.name, name_en := d.name_en, lat := d.lat, lon := d.lon,
    error := (errorD { error_type := "", msg := "" } e).msg,
    error_type := (errorD { error_type := "", msg := "" } e).error_type }

theorem toSuccess_predict (d : District) (e : Except PyError PredPayload) :
    toSuccess (predict_pm25_for_district d e) =
      if isOkB e then some (successOf d e) else none := by
  cases e <;> rfl

theorem toFailure_predict (d : District) (e : Except PyError PredPayload) :
    toFailure (predict_pm25_for_district d e) =
      if !(isOkB e) then some (failureOf d e) else none := by
  cases e <;> rfl

theorem filterMap_ite {α β : Type} (p : α → Bool) (g : α → β) (l : List α) :
    l.filterMap (fun a => if p a then some (g a) else none) = (l.filter p).map g := by
  induction l with
  | nil => rfl
  | cons a l ih =>
    by_cases hp : p a <;> simp [List.filterMap_cons, List.filter, hp, ih]

/-- C5: in a batch over `N` districts (with distinct ids) of which
exactly `K` fail, the response holds exactly `N - K` success entries and
`K` error entries; success and failure ids together are a permutation of
all district ids with no id on both sides; both lists are sorted
ascending by district id; the success entries are, up to the sort, the
`(id, rounded prediction)` pairs of exactly the non-failing districts;
and the statistics are computed over exactly the success entries'
`pm25_prediction` values. -/
theorem C5_batch_partition (sqrtF : ℚ → ℚ) (districts : List District)
    (pipe : District → Except PyError PredPayload)
    (hids : (districts.map District.id).Nodup) :
    (predict_all_districts sqrtF districts pipe).districts.length =
      districts.length - (districts.filter (fun d => !(isOkB (pipe d)))).length ∧
    (predict_all_districts sqrtF districts pipe).errors.length =
      (districts.filter (fun d => !(isOkB (pipe d)))).length ∧
    ((predict_all_districts sqrtF districts pipe).districts.map SuccessResult.id ++
      (predict_all_districts sqrtF districts pipe).errors.map ErrorResult.id).Perm
      (districts.map District.id) ∧
    (∀ i ∈ (predict_all_districts sqrtF districts pipe).districts.map SuccessResult.id,
      i ∉ (predict_all_districts sqrtF districts pipe).errors.map ErrorResult.id) ∧
    List.Sorted (· ≤ ·)
      ((predict_all_districts sqrtF districts pipe).districts.map SuccessResult.id) ∧
    List.Sorted (· ≤ ·)
      ((predict_all_districts sqrtF districts pipe).errors.map ErrorResult.id) ∧
    ((predict_all_districts sqrtF districts pipe).districts.map
        (fun s => (s.id, s.pm25_prediction))).Perm
      ((districts.filter (fun d => isOkB (pipe d))).map
        (fun d => (d.id, pyRound2 ((payloadD { prediction := 0 } (pipe d)).prediction)))) ∧
    (predict_all_districts sqrtF districts pipe).statistics =
      (if (predict_all_districts sqrtF districts pipe).districts.isEmpty then none
       else some (computeStatistics sqrtF
        ((predict_all_districts sqrtF districts pipe).districts.map
          SuccessResult.pm25_prediction)
        districts.length
        (predict_all_districts sqrtF districts pipe).districts.length
        (predict_all_districts sqrtF districts pipe).errors.length)) := by
  have hpreS : (districts.map (fun d => predict_pm25_for_district d (pipe d))).filterMap
      toSuccess =
      (districts.filter (fun d => isOkB (pipe d))).map (fun d => successOf d (pipe d)) := by
    rw [List.filterMap_map]
    have h : (toSuccess ∘ fun d => predict_pm25_for_district d (pipe d)) =
        fun d => if isOkB (pipe d) then some (successOf d (pipe d)) else none :=
      funext fun d => toSuccess_predict d (pipe d)
    rw [h, filterMap_ite]
  have hpreE : (districts.map (fun d => predict_pm25_for_district d (pipe d))).filterMap
      toFailure =
      (districts.filter (fun d => !(isOkB (pipe d)))).map (fun d => failureOf d (pipe d)) := by
    rw [List.filterMap_map]
    have h : (toFailure ∘ fun d => predict_pm25_for_district d (pipe d)) =
        fun d => if !(isOkB (pipe d)) then some (failureOf d (pipe d)) else none :=
      funext fun d => toFailure_predict d (pipe d)
    rw [h, filterMap_ite]
  have hdists : (predict_all_districts sqrtF districts pipe).districts =
      List.insertionSort (fun a b : SuccessResult => a.id ≤ b.id)
        ((districts.filter (fun d => isOkB (pipe d))).map (fun d => successOf d (pipe d))) := by
    simp only [predict_all_districts]
    rw [hpreS]
  have herrs : (predict_all_districts sqrtF districts pipe).errors =
      List.insertionSort (fun a b : ErrorResult => a.id ≤ b.id)
        ((districts.filter (fun d => !(isOkB (pipe d)))).map (fun d => failureOf d (pipe d))) := by
    simp only [predict_all_districts]
    rw [hpreE]
  have hpermS : (predict_all_districts sqrtF districts pipe).districts.Perm
      ((districts.filter (fun d => isOkB (pipe d))).map (fun d => successOf d (pipe d))) := by
    rw [hdists]
    exact List.perm_insertionSort _ _
  have hpermE : (predict_all_districts sqrtF districts pipe).errors.Perm
      ((districts.filter (fun d => !(isOkB (pipe d)))).map (fun d => failureOf d (pipe d))) := by
    rw [herrs]
    exact List.perm_insertionSort _ _
  have hsum : (districts.filter (fun d => isOkB (pipe d))).length +
      (districts.filter (fun d => !(isOkB (pipe d)))).length = districts.length := by
    have h := (List.filter_append_perm (fun d => isOkB (pipe d)) districts).length_eq
    simpa [List.length_append] using h
  have hlenS : (predict_all_districts sqrtF districts pipe).districts.length =
      (districts.filter (fun d => isOkB (pipe d))).length := by
    rw [hpermS.length_eq, List.length_map]
  have hlenE : (predict_all_districts sqrtF districts pipe).errors.length =
      (districts.filter (fun d => !(isOkB (pipe d)))).length := by
    rw [hpermE.length_eq, List.length_map]
  have hidperm : ((predict_all_districts sqrtF districts pipe).districts.map SuccessResult.id ++
      (predict_all_districts sqrtF districts pipe).errors.map ErrorResult.id).Perm
      (districts.map District.id) := by
    have h1 := (hpermS.map SuccessResult.id).append (hpermE.map ErrorResult.id)
    have h2 : ((districts.filter (fun d => isOkB (pipe d))).map
          (fun d => successOf d (pipe d))).map SuccessResult.id ++
        ((districts.filter (fun d => !(isOkB (pipe d)))).map
          (fun d => failureOf d (pipe d))).map ErrorResult.id =
        ((districts.filter (fun d => isOkB (pipe d))) ++
          (districts.filter (fun d => !(isOkB (pipe d))))).map District.id := by
      rw [List.map_append, List.map_map, List.map_map]
      rfl
    have h3 := (List.filter_append_perm (fun d => isOkB (pipe d)) districts).map District.id
    rw [h2] at h1
    exact h1.trans h3
  have hnodup : ((predict_all_districts sqrtF districts pipe).districts.map SuccessResult.id ++
      (predict_all_districts sqrtF districts pipe).errors.map ErrorResult.id).Nodup :=
    hidperm.symm.nodup hids
  refine ⟨by omega, hlenE, hidperm, ?_, ?_, ?_, ?_, rfl⟩
  · intro i hiS hiE
    rw [List.nodup_append] at hnodup
    exact hnodup.2.2 hiS hiE
  · haveI : IsTotal SuccessResult (fun a b => a.id ≤ b.id) :=
      ⟨fun a b => Nat.le_total a.id b.id⟩
    haveI : IsTrans SuccessResult (fun a b => a.id ≤ b.id) :=
      ⟨fun a b c hab hbc => Nat.le_trans hab hbc⟩
    rw [hdists]
    exact (List.sorted_insertionSort _ _).map SuccessResult.id (fun a b h => h)
  · haveI : IsTotal ErrorResult (fun a b => a.id ≤ b.id) :=
      ⟨fun a b => Nat.le_total a.id b.id⟩
    haveI : IsTrans ErrorResult (fun a b => a.id ≤ b.id) :=
      ⟨fun a b c hab hbc => Nat.le_trans hab hbc⟩
    rw [herrs]
    exact (List.sorted_insertionSort _ _).map ErrorResult.id (fun a b h => h)
  · have h1 := hpermS.map (fun s : SuccessResult => (s.id, s.pm25_prediction))
    have h2 : ((districts.filter (fun d => isOkB (pipe d))).map
          (fun d => successOf d (pipe d))).map
        (fun s : SuccessResult => (s.id, s.pm25_prediction)) =
        (districts.filter (fun d => isOkB (pipe d))).map
          (fun d => (d.id, pyRound2 ((payloadD { prediction := 0 } (pipe d)).prediction))) := by
      rw [List.map_map]
      rfl
    rw [h2] at h1
    exact h1

/-- Two configured districts for the C5 witness. -/
def c5Districts : List District :=
  [{ id := 1, name := "Ba Dinh", name_en := "Ba Dinh", lat := 21, lon := 105,
     population := 1000, area_km2 := 9, district_type := "urban" },
   { id := 2, name := "Hoan Kiem", name_en := "Hoan Kiem", lat := 21, lon := 105,
     population := 2000, area_km2 := 5, district_type := "urban" }]

/-- A pipeline where district 1 succeeds and district 2 raises. -/
def c5Pipe (d : District) : Except PyError PredPayload :=
  if d.id = 1 then .ok { prediction := 20 }
  else .error { error_type := "ValueError", msg := "Expected 3 hours of data" }

/-- Witness for C5: with 2 districts of which exactly 1 fails, the
response has exactly 1 success entry and 1 error entry. -/
theorem C5_batch_partition_witness :
    (predict_all_districts id c5Districts c5Pipe).districts.length =
      c5Districts.length - (c5Districts.filter (fun d => !(isOkB (c5Pipe d)))).length ∧
    (predict_all_districts id c5Districts c5Pipe).errors.length =
      (c5Districts.filter (fun d => !(isOkB (c5Pipe d)))).length :=
  ⟨(C5_batch_partition id c5Districts c5Pipe (by decide)).1,
   (C5_batch_partition id c5Districts c5Pipe (by decide)).2.1⟩
